import Mathlib

/-!
Verification of the Malaysian YouTube banking dashboard.

This file gives a shallow embedding of the computational parts of the
repository and proves (or refutes) the frozen claims about them:

* `pages/page1.py`: the SQL sanitizer `clean_sql_output`, the LLM-SQL
  pipeline `answer_user_query`, and the Dash callback `process_question`.
* `pages/page2.py`: the engagement aggregation in `update_barline_all`.
* `pages/page3.py`: the per-sentiment comment sampling in
  `update_comment_insights`.

Strings are modelled as `List Char`; Python's `str` operations used by the
code (`re.sub`, `str.replace`, `str.strip`, `str.endswith`, `+`) are embedded
below, scanning left to right exactly as CPython does.  The LLM and the
database are external effectful calls and are modelled as oracle functions
returning `Except String _` (an exception message or a value).
-/

/-- The backtick character (U+0060), written via its code point. -/
def btick : Char := Char.ofNat 96

/-- Does the triple of characters spell `sql` case-insensitively?  This is the
optional group of the pattern `(three backticks)(sql)?` compiled with
`re.IGNORECASE` in `clean_sql_output`. -/
def isSqlTag (s q l : Char) : Bool :=
  (s == 's' || s == 'S') && (q == 'q' || q == 'Q') && (l == 'l' || l == 'L')

/-- One left-to-right pass of `re.sub` for the fence pattern: at each position
try to consume three backticks optionally followed by `sql` (any case), else
emit the character and move on.  `fuel` only forces termination; the wrapper
`stripFences` supplies `fuel = length`, which is enough because every step
consumes at least one character. -/
def stripFencesAux : Nat → List Char → List Char
  | 0, l => l
  | _ + 1, [] => []
  | fuel + 1, c :: rest =>
    if c == btick then
      match rest with
      | c2 :: c3 :: rest3 =>
        if c2 == btick && c3 == btick then
          match rest3 with
          | s :: q :: lc :: rest6 =>
            if isSqlTag s q lc then stripFencesAux fuel rest6 else stripFencesAux fuel rest3
          | _ => stripFencesAux fuel rest3
        else c :: stripFencesAux fuel rest
      | _ => c :: stripFencesAux fuel rest
    else c :: stripFencesAux fuel rest

/-- `re.sub(three-backticks-then-optional-sql, "", text, flags=re.IGNORECASE)`,
the first sanitization step of `clean_sql_output`. -/
def stripFences (l : List Char) : List Char := stripFencesAux l.length l

/-- Do the first two characters exist and equal backticks? -/
def startsTwoTicks : List Char → Bool
  | c2 :: c3 :: _ => c2 == btick && c3 == btick
  | _ => false

/-- Does the text contain three consecutive backticks (a markdown code fence
marker) anywhere? -/
def hasFence : List Char → Bool
  | [] => false
  | c :: rest => (c == btick && startsTwoTicks rest) || hasFence rest

/-- The number of leading backticks, the measure driving the fence-freeness
invariant of `stripFencesAux`. -/
def leadTicks : List Char → Nat
  | [] => 0
  | c :: rest => if c == btick then leadTicks rest + 1 else 0

/-- One left-to-right pass of `str.replace` for three literal backticks with
the empty replacement, the second sanitization step of `clean_sql_output`.
As with `stripFencesAux`, `fuel = length` always suffices. -/
def replaceFenceAux : Nat → List Char → List Char
  | 0, l => l
  | _ + 1, [] => []
  | fuel + 1, c :: rest =>
    if c == btick then
      match rest with
      | c2 :: c3 :: rest3 =>
        if c2 == btick && c3 == btick then replaceFenceAux fuel rest3
        else c :: replaceFenceAux fuel rest
      | _ => c :: replaceFenceAux fuel rest
    else c :: replaceFenceAux fuel rest

/-- `text.replace(three backticks, "")`. -/
def replaceFence (l : List Char) : List Char := replaceFenceAux l.length l

/-- The characters of the label `SQL Query:` removed by `clean_sql_output`. -/
def labelChars : List Char := ['S', 'Q', 'L', ' ', 'Q', 'u', 'e', 'r', 'y', ':']

/-- Does the text begin with the label `SQL Query:`? -/
def startsWithLabel (l : List Char) : Bool := l.take 10 == labelChars

/-- One left-to-right pass of `str.replace` for `"SQL Query:"` with the empty
replacement: at each position, if the next ten characters spell the label,
remove them and continue after them, else emit the character.  As with
`stripFencesAux`, `fuel = length` always suffices. -/
def removeLabelAux : Nat → List Char → List Char
  | 0, l => l
  | _ + 1, [] => []
  | fuel + 1, c :: rest =>
    if startsWithLabel (c :: rest) then removeLabelAux fuel ((c :: rest).drop 10)
    else c :: removeLabelAux fuel rest

/-- `text.replace("SQL Query:", "")`: remove every (case-sensitive) occurrence,
scanning left to right and continuing after each removed occurrence. -/
def removeLabel (l : List Char) : List Char := removeLabelAux l.length l

/-- Does the text contain `SQL Query:` anywhere? -/
def hasLabel : List Char → Bool
  | [] => false
  | c :: rest => startsWithLabel (c :: rest) || hasLabel rest

/-- The ASCII whitespace characters removed by Python's `str.strip()`:
space, tab, newline, carriage return, vertical tab, form feed. -/
def isPySpace (c : Char) : Bool :=
  c == ' ' || c == '\t' || c == '\n' || c == '\r' || c == Char.ofNat 11 || c == Char.ofNat 12

/-- Remove trailing whitespace. -/
def dropTrailingSpaces : List Char → List Char
  | [] => []
  | c :: rest =>
    match dropTrailingSpaces rest with
    | [] => if isPySpace c then [] else [c]
    | r => c :: r

/-- Python's `str.strip()`: remove leading and trailing whitespace. -/
def pyStrip (l : List Char) : List Char :=
  dropTrailingSpaces (l.dropWhile isPySpace)

/-- `clean_sql_output` from `pages/page1.py`: strip the fence pattern with the
optional `sql` tag, strip remaining literal triple backticks, remove every
occurrence of `SQL Query:`, strip surrounding whitespace, and append `;`
unless the result already ends with it. -/
def clean_sql_output (text : List Char) : List Char :=
  let c1 := stripFences text
  let c2 := replaceFence c1
  let c3 := removeLabel c2
  let c4 := pyStrip c3
  if c4.getLast? = some ';' then c4 else c4 ++ [';']

/-- `clean_sql_output` packaged on `String` for the call sites in page 1. -/
def cleanStr (s : String) : String := String.mk (clean_sql_output s.data)

/-- Reference transform following the spec's words for claim C5: strip the
fence markers, drop a *leading* `SQL Query:` label only, trim whitespace,
append the terminator if absent.  (The source instead removes *every*
occurrence of the label; this definition exists to be compared with it.) -/
def specCleanLeading (l : List Char) : List Char :=
  let s1 := replaceFence (stripFences l)
  let s2 := if startsWithLabel s1 then s1.drop 10 else s1
  let s3 := pyStrip s2
  if s3.getLast? = some ';' then s3 else s3 ++ [';']

/-- Reference transform of the amended claim C5: a single regex pass strips
the fence markers (the follow-up literal triple-backtick replacement in the
source is redundant), every occurrence of `SQL Query:` is removed, whitespace
is trimmed and the terminator appended if absent. -/
def specCleanAll (l : List Char) : List Char :=
  let s1 := stripFences l
  let s2 := pyStrip (removeLabel s1)
  if s2.getLast? = some ';' then s2 else s2 ++ [';']

/-- `write_sql_query(llm).invoke({"question": question})`: the LLM turns the
question into raw text (`prompt | llm | StrOutputParser()`, modelled by the
oracle `llmSQL`), then `RunnableLambda(clean_sql_output)` sanitizes it.
A raised exception is an `Except.error` carrying its message. -/
def write_sql_query (llmSQL : String → Except String String) (question : String) :
    Except String String :=
  (llmSQL question).map cleanStr

/-- `run_query` from `pages/page1.py`: sanitize once more, then execute
against the database (oracle `dbRun`); database errors propagate. -/
def run_query (dbRun : String → Except String String) (query : String) :
    Except String String :=
  dbRun (cleanStr query)

/-- Result record of `answer_user_query`: the generated SQL and the
natural-language answer. -/
structure AnswerResult where
  sql : String
  answer : String
deriving DecidableEq

/-- The body of the `try:` block of `answer_user_query`: generate SQL from
the question, sanitize it again, execute it, and ask the LLM (oracle
`llmAnswer`, receiving question, query and response) for a final answer. -/
def query_pipeline (question : String)
    (llmSQL : String → Except String String)
    (dbRun : String → Except String String)
    (llmAnswer : String → String → String → Except String String) :
    Except String (String × String) :=
  match write_sql_query llmSQL question with
  | .error e => .error e
  | .ok sql_query =>
    let cleaned_query := cleanStr sql_query
    match run_query dbRun cleaned_query with
    | .error e => .error e
    | .ok sql_response =>
      match llmAnswer question cleaned_query sql_response with
      | .error e => .error e
      | .ok answer_text => .ok (cleaned_query, answer_text)

/-- `answer_user_query` from `pages/page1.py`: run the pipeline; any exception
is caught and turned into `sql = ""` and a formatted error answer. -/
def answer_user_query (question : String)
    (llmSQL : String → Except String String)
    (dbRun : String → Except String String)
    (llmAnswer : String → String → String → Except String String) :
    AnswerResult :=
  match query_pipeline question llmSQL dbRun llmAnswer with
  | .ok (q, a) => { sql := q, answer := a }
  | .error e => { sql := "", answer := "❌ Error: " ++ e }

/-- The two values of the `query-mode` radio control. -/
inductive Mode where
  | llm
  | manual
deriving DecidableEq

/-- A rendered Dash output (only the structure the callback distinguishes). -/
inductive Out where
  | text : String → Out
  | sqlCard : String → Out
  | resultAlert : String → Out
  | resultTable : List (List String) → Out
deriving DecidableEq

/-- The `process_question` callback of `pages/page1.py`.  `none` for the
question models a missing Textarea value; `readSql` models
`pd.read_sql(..., db._engine)` returning the rows of the result table.
In the source the *entire* body of the `try:` block is indented under
`if mode == "manual":`, and the LLM-mode code sits after the manual branch's
`return`, so with mode `llm` the function body runs nothing and the callback
returns `None` — modelled by the `Option` result being `none`.  The LLM and
database oracles are parameters so that (non-)use of them is visible. -/
def process_question (user_question : Option String) (mode : Mode)
    (readSql : String → Except String (List (List String)))
    (_llmSQL : String → Except String String)
    (_dbRun : String → Except String String)
    (_llmAnswer : String → String → String → Except String String) :
    Option (Out × Out × Out) :=
  -- `if not user_question:` is taken for a missing value and for ""
  if user_question = none ∨ user_question = some "" then
    some (.text "", .text "", .text "⚠️ Please enter a question.")
  else
    match mode with
    | .manual =>
      let cleaned := cleanStr (user_question.getD "")
      match readSql cleaned with
      | .error e => some (.text "", .text "", .text ("❌ SQL Error: " ++ e))
      | .ok df =>
          some (.sqlCard cleaned,
                if df = [] then .resultAlert "⚠️ Query returned no rows."
                else .resultTable df,
                .text "")
    | .llm => none

/-- A row of the engagement dataframe `COLLATE_MM` of `pages/page2.py` after
`pd.to_datetime(..., errors="coerce")`: a failed date parse leaves `none`
(pandas `NaT`).  Dates are day numbers. -/
structure VideoRow where
  handle : String
  date : Option Int
  views : Int
  likes : Int
deriving DecidableEq

/-- The row filter `(date >= start) & (date <= end)` of `update_barline_all`;
comparisons against `NaT` are false, so rows without a parsed date drop out. -/
def dateInRange (startD endD : Int) (r : VideoRow) : Bool :=
  match r.date with
  | some d => decide (startD ≤ d) && decide (d ≤ endD)
  | none => false

/-- One output row of the `groupby("Youtube_Handle").agg(...)` step. -/
structure AggRow where
  handle : String
  sumLikes : Int
  sumViews : Int
  countVideos : Nat
deriving DecidableEq

/-- The aggregate row for one handle: summed likes, summed views, row count
over the rows carrying that handle. -/
def aggFor (df : List VideoRow) (h : String) : AggRow :=
  let g := df.filter (fun r => r.handle == h)
  { handle := h
    sumLikes := (g.map VideoRow.likes).sum
    sumViews := (g.map VideoRow.views).sum
    countVideos := g.length }

/-- `df.groupby("Youtube_Handle", as_index=False).agg(...)`: one aggregate row
per distinct handle of the filtered data. -/
def groupAgg (df : List VideoRow) : List AggRow :=
  ((df.map VideoRow.handle).dedup).map (aggFor df)

/-- The `sort-toggle` radio value of page 2. -/
inductive Metric where
  | views
  | likes
deriving DecidableEq

/-- The column selected by `sort_col = "Sum_Views" if sort_by == "views" else
"Sum_Likes"`. -/
def sortKey (m : Metric) (a : AggRow) : Int :=
  match m with
  | .views => a.sumViews
  | .likes => a.sumLikes

/-- Descending order on the selected metric, the relation used by
`sort_values(sort_col, ascending=False)`. -/
def metricDesc (m : Metric) (a b : AggRow) : Prop := sortKey m b ≤ sortKey m a

instance (m : Metric) : DecidableRel (metricDesc m) :=
  fun a b => inferInstanceAs (Decidable (sortKey m b ≤ sortKey m a))

instance (m : Metric) : IsTotal AggRow (metricDesc m) :=
  ⟨fun a b => le_total (sortKey m b) (sortKey m a)⟩

instance (m : Metric) : IsTrans AggRow (metricDesc m) :=
  ⟨fun _ _ _ h1 h2 => le_trans h2 h1⟩

/-- The data part of `update_barline_all` from `pages/page2.py`: filter the
rows to the selected date range, aggregate per handle, sort descending by the
selected metric, and compute the `num_videos` KPI as the sum of the per-handle
counts.  (The figure renders exactly the returned rows in order.) -/
def update_barline_all (rows : List VideoRow) (startD endD : Int) (m : Metric) :
    List AggRow × Nat :=
  let df := rows.filter (dateInRange startD endD)
  let sorted := (groupAgg df).insertionSort (metricDesc m)
  (sorted, (sorted.map AggRow.countVideos).sum)

/-- A row of the deduplicated comment dataframe `COLLATE_COMMENT` of
`pages/page3.py`. -/
structure CommentRow where
  handle : String
  videoId : String
  fullComment : String
  translated : String
  detectedLang : String
  sentiment : String
deriving DecidableEq

/-- The sentiment buckets iterated by `update_comment_insights`. -/
def sentimentsList : List String := ["positive", "neutral", "negative"]

/-- `df_selected[df_selected["sentiment"] == s]` where `df_selected` keeps the
comments of the selected handle. -/
def bucketRows (comments : List CommentRow) (h s : String) : List CommentRow :=
  (comments.filter (fun c => c.handle == h)).filter (fun c => c.sentiment == s)

/-- `df_sent.sample(min(5, len(df_sent)), random_state=...)`: drawing
`min 5 n` rows without replacement is modelled as taking the first `min 5 n`
rows of a permutation `shuffle` of the bucket (the random state only selects
the permutation). -/
def sampleBucket (shuffle : List CommentRow → List CommentRow)
    (g : List CommentRow) : List CommentRow :=
  (shuffle g).take (min 5 g.length)

/-- The sampling part of `update_comment_insights` from `pages/page3.py`:
for each sentiment in order, an empty bucket is skipped (`continue`),
otherwise up to five random rows are drawn for display. -/
def update_comment_insights_samples (shuffle : List CommentRow → List CommentRow)
    (comments : List CommentRow) (h : String) :
    List (String × List CommentRow) :=
  sentimentsList.filterMap (fun s =>
    let g := bucketRows comments h s
    if g.isEmpty then none
    else some (s, sampleBucket shuffle g))

/-! ### Lemmas about the sanitizer -/

theorem startsTwoTicks_eq_false_of_leadTicks {l : List Char} (h : leadTicks l ≤ 1) :
    startsTwoTicks l = false := by
  match l with
  | [] => rfl
  | [c] => rfl
  | c1 :: c2 :: rest =>
    by_cases h1 : (c1 == btick) = true
    · by_cases h2 : (c2 == btick) = true
      · simp [leadTicks, h1, h2] at h
      · simp [startsTwoTicks, h1, Bool.eq_false_iff.mpr h2]
    · simp [startsTwoTicks, Bool.eq_false_iff.mpr h1]

theorem leadTicks_le_two_of_no_fence {l : List Char} (h : hasFence l = false) :
    leadTicks l ≤ 2 := by
  match l with
  | [] => simp [leadTicks]
  | [c] => simp only [leadTicks]; split <;> simp [leadTicks]
  | [c1, c2] =>
    simp only [leadTicks]
    split
    · split <;> simp [leadTicks]
    · omega
  | c1 :: c2 :: c3 :: rest =>
    by_contra hgt
    have h1 : (c1 == btick) = true := by
      simp only [leadTicks] at hgt; by_contra hn
      simp [Bool.eq_false_iff.mpr hn] at hgt
    have h2 : (c2 == btick) = true := by
      simp only [leadTicks, h1, if_pos] at hgt; by_contra hn
      simp [Bool.eq_false_iff.mpr hn] at hgt
    have h3 : (c3 == btick) = true := by
      simp only [leadTicks, h1, h2, if_pos] at hgt; by_contra hn
      simp [Bool.eq_false_iff.mpr hn] at hgt
    simp [hasFence, startsTwoTicks, h1, h2, h3] at h


theorem leadTicks_cons_tick {c : Char} (l : List Char) (hc : (c == btick) = true) :
    leadTicks (c :: l) = leadTicks l + 1 := by
  simp [leadTicks, hc]

theorem stripFencesAux_invariant : ∀ fuel (l : List Char), l.length ≤ fuel →
    hasFence (stripFencesAux fuel l) = false ∧
      leadTicks (stripFencesAux fuel l) ≤ leadTicks l := by
  intro fuel l
  induction fuel, l using stripFencesAux.induct with
  | case1 l =>
    intro h
    have : l = [] := List.eq_nil_of_length_eq_zero (Nat.le_zero.mp h)
    subst this
    simp [stripFencesAux, hasFence, leadTicks]
  | case2 fuel =>
    intro _
    simp [stripFencesAux, hasFence, leadTicks]
  | case3 fuel c hc c2 c3 h23 s q lc rest6 htag ih =>
    intro hlen
    simp only [List.length_cons] at hlen
    obtain ⟨ih1, _⟩ := ih (by omega)
    obtain ⟨hc2, hc3⟩ := Bool.and_eq_true_iff.mp h23
    have hout : stripFencesAux (fuel + 1) (c :: c2 :: c3 :: s :: q :: lc :: rest6)
        = stripFencesAux fuel rest6 := by
      simp [stripFencesAux, hc, h23, htag]
    rw [hout]
    refine ⟨ih1, ?_⟩
    have hle2 := leadTicks_le_two_of_no_fence ih1
    rw [leadTicks_cons_tick _ hc, leadTicks_cons_tick _ hc2, leadTicks_cons_tick _ hc3]
    omega
  | case4 fuel c hc c2 c3 h23 s q lc rest6 htag ih =>
    intro hlen
    simp only [List.length_cons] at hlen
    obtain ⟨ih1, _⟩ := ih (by simp only [List.length_cons]; omega)
    obtain ⟨hc2, hc3⟩ := Bool.and_eq_true_iff.mp h23
    have hout : stripFencesAux (fuel + 1) (c :: c2 :: c3 :: s :: q :: lc :: rest6)
        = stripFencesAux fuel (s :: q :: lc :: rest6) := by
      simp [stripFencesAux, hc, h23, htag]
    rw [hout]
    refine ⟨ih1, ?_⟩
    have hle2 := leadTicks_le_two_of_no_fence ih1
    rw [leadTicks_cons_tick _ hc, leadTicks_cons_tick _ hc2, leadTicks_cons_tick _ hc3]
    omega
  | case5 fuel c hc c2 c3 rest3 h23 hshort ih =>
    intro hlen
    simp only [List.length_cons] at hlen
    obtain ⟨ih1, _⟩ := ih (by omega)
    obtain ⟨hc2, hc3⟩ := Bool.and_eq_true_iff.mp h23
    have hout : stripFencesAux (fuel + 1) (c :: c2 :: c3 :: rest3)
        = stripFencesAux fuel rest3 := by
      rcases rest3 with _ | ⟨x, _ | ⟨y, _ | ⟨z, r⟩⟩⟩
      · simp [stripFencesAux, hc, h23]
      · simp [stripFencesAux, hc, h23]
      · simp [stripFencesAux, hc, h23]
      · exact absurd rfl (by intro hh; exact hshort x y z r hh)
    rw [hout]
    refine ⟨ih1, ?_⟩
    have hle2 := leadTicks_le_two_of_no_fence ih1
    rw [leadTicks_cons_tick _ hc, leadTicks_cons_tick _ hc2, leadTicks_cons_tick _ hc3]
    omega
  | case6 fuel c hc c2 c3 rest3 h23 ih =>
    intro hlen
    simp only [List.length_cons] at hlen
    obtain ⟨ih1, ih2⟩ := ih (by simp only [List.length_cons]; omega)
    have hout : stripFencesAux (fuel + 1) (c :: c2 :: c3 :: rest3)
        = c :: stripFencesAux fuel (c2 :: c3 :: rest3) := by
      simp [stripFencesAux, hc, h23]
    rw [hout]
    have hlead : leadTicks (c2 :: c3 :: rest3) ≤ 1 := by
      rcases Bool.and_eq_false_iff.mp (Bool.eq_false_iff.mpr h23) with h2 | h3
      · simp [leadTicks, h2]
      · by_cases h2 : (c2 == btick) = true
        · rw [leadTicks_cons_tick _ h2]
          simp [leadTicks, h3]
        · simp [leadTicks, Bool.eq_false_iff.mpr h2]
    have hlow : leadTicks (stripFencesAux fuel (c2 :: c3 :: rest3)) ≤ 1 := le_trans ih2 hlead
    constructor
    · simp [hasFence, ih1, startsTwoTicks_eq_false_of_leadTicks hlow]
    · rw [leadTicks_cons_tick _ hc, leadTicks_cons_tick _ hc]
      omega
  | case7 fuel c rest hc hshort ih =>
    intro hlen
    simp only [List.length_cons] at hlen
    obtain ⟨ih1, ih2⟩ := ih (by omega)
    have hrest : rest = [] ∨ ∃ x, rest = [x] := by
      rcases rest with _ | ⟨x, _ | ⟨y, r⟩⟩
      · exact Or.inl rfl
      · exact Or.inr ⟨x, rfl⟩
      · exact absurd rfl (by intro hh; exact hshort x y r hh)
    have hout : stripFencesAux (fuel + 1) (c :: rest) = c :: stripFencesAux fuel rest := by
      rcases hrest with h | ⟨x, h⟩ <;> subst h <;> simp [stripFencesAux, hc]
    rw [hout]
    have hlead : leadTicks rest ≤ 1 := by
      rcases hrest with h | ⟨x, h⟩ <;> subst h
      · simp [leadTicks]
      · simp only [leadTicks]
        split <;> simp [leadTicks]
    have hlow : leadTicks (stripFencesAux fuel rest) ≤ 1 := le_trans ih2 hlead
    constructor
    · simp [hasFence, ih1, startsTwoTicks_eq_false_of_leadTicks hlow]
    · rw [leadTicks_cons_tick _ hc, leadTicks_cons_tick _ hc]
      omega
  | case8 fuel c rest hc ih =>
    intro hlen
    simp only [List.length_cons] at hlen
    obtain ⟨ih1, _⟩ := ih (by omega)
    have hout : stripFencesAux (fuel + 1) (c :: rest) = c :: stripFencesAux fuel rest := by
      simp [stripFencesAux, hc]
    rw [hout]
    constructor
    · simp [hasFence, ih1, Bool.eq_false_iff.mpr hc]
    · simp [leadTicks, Bool.eq_false_iff.mpr hc]

theorem hasFence_stripFences (l : List Char) : hasFence (stripFences l) = false :=
  (stripFencesAux_invariant l.length l le_rfl).1

theorem hasFence_tail {c : Char} {l : List Char} (h : hasFence (c :: l) = false) :
    hasFence l = false := by
  have h' : ((c == btick && startsTwoTicks l) || hasFence l) = false := h
  exact (Bool.or_eq_false_iff.mp h').2

theorem hasLabel_tail {c : Char} {l : List Char} (h : hasLabel (c :: l) = false) :
    hasLabel l = false := by
  have h' : (startsWithLabel (c :: l) || hasLabel l) = false := h
  exact (Bool.or_eq_false_iff.mp h').2

theorem stripFencesAux_of_no_fence : ∀ fuel (l : List Char), hasFence l = false →
    stripFencesAux fuel l = l := by
  intro fuel l
  induction fuel, l using stripFencesAux.induct with
  | case1 l => intro _; rfl
  | case2 fuel => intro _; rfl
  | case3 fuel c hc c2 c3 h23 s q lc rest6 htag ih =>
    intro h
    obtain ⟨hc2, hc3⟩ := Bool.and_eq_true_iff.mp h23
    simp [hasFence, startsTwoTicks, hc, hc2, hc3] at h
  | case4 fuel c hc c2 c3 h23 s q lc rest6 htag ih =>
    intro h
    obtain ⟨hc2, hc3⟩ := Bool.and_eq_true_iff.mp h23
    simp [hasFence, startsTwoTicks, hc, hc2, hc3] at h
  | case5 fuel c hc c2 c3 rest3 h23 hshort ih =>
    intro h
    obtain ⟨hc2, hc3⟩ := Bool.and_eq_true_iff.mp h23
    simp [hasFence, startsTwoTicks, hc, hc2, hc3] at h
  | case6 fuel c hc c2 c3 rest3 h23 ih =>
    intro h
    have hout : stripFencesAux (fuel + 1) (c :: c2 :: c3 :: rest3)
        = c :: stripFencesAux fuel (c2 :: c3 :: rest3) := by
      simp [stripFencesAux, hc, h23]
    rw [hout, ih (hasFence_tail h)]
  | case7 fuel c rest hc hshort ih =>
    intro h
    have hout : stripFencesAux (fuel + 1) (c :: rest) = c :: stripFencesAux fuel rest := by
      rcases rest with _ | ⟨x, _ | ⟨y, r⟩⟩
      · simp [stripFencesAux, hc]
      · simp [stripFencesAux, hc]
      · exact absurd rfl (by intro hh; exact hshort x y r hh)
    rw [hout, ih (hasFence_tail h)]
  | case8 fuel c rest hc ih =>
    intro h
    have hout : stripFencesAux (fuel + 1) (c :: rest) = c :: stripFencesAux fuel rest := by
      simp [stripFencesAux, hc]
    rw [hout, ih (hasFence_tail h)]

theorem stripFences_of_no_fence {l : List Char} (h : hasFence l = false) :
    stripFences l = l :=
  stripFencesAux_of_no_fence l.length l h

theorem replaceFenceAux_of_no_fence : ∀ fuel (l : List Char), hasFence l = false →
    replaceFenceAux fuel l = l := by
  intro fuel l
  induction fuel, l using replaceFenceAux.induct with
  | case1 l => intro _; rfl
  | case2 fuel => intro _; rfl
  | case3 fuel c hc c2 c3 rest3 h23 ih =>
    intro h
    obtain ⟨hc2, hc3⟩ := Bool.and_eq_true_iff.mp h23
    simp [hasFence, startsTwoTicks, hc, hc2, hc3] at h
  | case4 fuel c hc c2 c3 rest3 h23 ih =>
    intro h
    have hout : replaceFenceAux (fuel + 1) (c :: c2 :: c3 :: rest3)
        = c :: replaceFenceAux fuel (c2 :: c3 :: rest3) := by
      simp [replaceFenceAux, hc, h23]
    rw [hout, ih (hasFence_tail h)]
  | case5 fuel c rest hc hshort ih =>
    intro h
    have hout : replaceFenceAux (fuel + 1) (c :: rest) = c :: replaceFenceAux fuel rest := by
      rcases rest with _ | ⟨x, _ | ⟨y, r⟩⟩
      · simp [replaceFenceAux, hc]
      · simp [replaceFenceAux, hc]
      · exact absurd rfl (by intro hh; exact hshort x y r hh)
    rw [hout, ih (hasFence_tail h)]
  | case6 fuel c rest hc ih =>
    intro h
    have hout : replaceFenceAux (fuel + 1) (c :: rest) = c :: replaceFenceAux fuel rest := by
      simp [replaceFenceAux, hc]
    rw [hout, ih (hasFence_tail h)]

theorem replaceFence_of_no_fence {l : List Char} (h : hasFence l = false) :
    replaceFence l = l :=
  replaceFenceAux_of_no_fence l.length l h

theorem replaceFence_stripFences (l : List Char) :
    replaceFence (stripFences l) = stripFences l :=
  replaceFence_of_no_fence (hasFence_stripFences l)

theorem removeLabelAux_of_no_label : ∀ fuel (l : List Char), hasLabel l = false →
    removeLabelAux fuel l = l := by
  intro fuel l
  induction fuel, l using removeLabelAux.induct with
  | case1 l => intro _; rfl
  | case2 fuel => intro _; rfl
  | case3 fuel c rest hlbl ih =>
    intro h
    have h' : (startsWithLabel (c :: rest) || hasLabel rest) = false := h
    rw [hlbl] at h'
    simp at h'
  | case4 fuel c rest hlbl ih =>
    intro h
    have hout : removeLabelAux (fuel + 1) (c :: rest) = c :: removeLabelAux fuel rest := by
      simp only [removeLabelAux, hlbl]
      simp
    rw [hout, ih (hasLabel_tail h)]

theorem removeLabel_of_no_label {l : List Char} (h : hasLabel l = false) :
    removeLabel l = l :=
  removeLabelAux_of_no_label l.length l h

theorem startsTwoTicks_append {a b : List Char} (h : startsTwoTicks a = true) :
    startsTwoTicks (a ++ b) = true := by
  match a with
  | [] => exact absurd h (by simp [startsTwoTicks])
  | [c] => exact absurd h (by simp [startsTwoTicks])
  | c1 :: c2 :: r => exact h

theorem hasFence_append_left {a b : List Char} (h : hasFence a = true) :
    hasFence (a ++ b) = true := by
  induction a with
  | nil => simp [hasFence] at h
  | cons c rest ih =>
    have h' : ((c == btick && startsTwoTicks rest) || hasFence rest) = true := h
    rcases Bool.or_eq_true_iff.mp h' with h1 | h2
    · obtain ⟨hb, ht⟩ := Bool.and_eq_true_iff.mp h1
      show ((c == btick && startsTwoTicks (rest ++ b)) || hasFence (rest ++ b)) = true
      rw [hb, startsTwoTicks_append ht]
      rfl
    · show ((c == btick && startsTwoTicks (rest ++ b)) || hasFence (rest ++ b)) = true
      rw [ih h2]
      simp

theorem hasFence_dropWhile {p : Char → Bool} {l : List Char} (h : hasFence l = false) :
    hasFence (l.dropWhile p) = false := by
  induction l with
  | nil => simpa using h
  | cons c rest ih =>
    rw [List.dropWhile_cons]
    split
    · exact ih (hasFence_tail h)
    · exact h

theorem dropTrailingSpaces_eq_take : ∀ l : List Char, ∃ t, dropTrailingSpaces l ++ t = l := by
  intro l
  induction l with
  | nil => exact ⟨[], rfl⟩
  | cons c rest ih =>
    obtain ⟨t, ht⟩ := ih
    cases hr : dropTrailingSpaces rest with
    | nil =>
      by_cases hc : isPySpace c = true
      · refine ⟨c :: rest, ?_⟩
        show dropTrailingSpaces (c :: rest) ++ (c :: rest) = c :: rest
        simp [dropTrailingSpaces, hr, hc]
      · refine ⟨rest, ?_⟩
        show dropTrailingSpaces (c :: rest) ++ rest = c :: rest
        rw [hr] at ht
        simp only [List.nil_append] at ht
        simp [dropTrailingSpaces, hr, hc, ht]
    | cons x xs =>
      rw [hr] at ht
      refine ⟨t, ?_⟩
      show dropTrailingSpaces (c :: rest) ++ t = c :: rest
      simp only [dropTrailingSpaces, hr]
      simpa using congrArg (c :: ·) ht

theorem hasFence_dropTrailingSpaces {l : List Char} (h : hasFence l = false) :
    hasFence (dropTrailingSpaces l) = false := by
  cases hd : hasFence (dropTrailingSpaces l) with
  | false => rfl
  | true =>
    obtain ⟨t, ht⟩ := dropTrailingSpaces_eq_take l
    have := hasFence_append_left (b := t) hd
    rw [ht] at this
    rw [this] at h
    exact absurd h (by simp)

theorem hasFence_pyStrip {l : List Char} (h : hasFence l = false) :
    hasFence (pyStrip l) = false :=
  hasFence_dropTrailingSpaces (hasFence_dropWhile h)

theorem startsTwoTicks_append_nontick {l : List Char} {c : Char}
    (hc : (c == btick) = false) : startsTwoTicks (l ++ [c]) = startsTwoTicks l := by
  match l with
  | [] => simp [startsTwoTicks, hc]
  | [x] => simp [startsTwoTicks, hc]
  | x :: y :: r => rfl

theorem hasFence_append_nontick {l : List Char} {c : Char} (h : hasFence l = false)
    (hc : (c == btick) = false) : hasFence (l ++ [c]) = false := by
  induction l with
  | nil => simp [hasFence, startsTwoTicks]
  | cons x rest ih =>
    have h' : ((x == btick && startsTwoTicks rest) || hasFence rest) = false := h
    obtain ⟨h1, h2⟩ := Bool.or_eq_false_iff.mp h'
    show ((x == btick && startsTwoTicks (rest ++ [c])) || hasFence (rest ++ [c])) = false
    rw [startsTwoTicks_append_nontick hc, h1, ih h2]
    rfl

/-! ### Claims C2-C5: the SQL sanitizer -/

/-- Claim C2 (corrected), counterexample: the claim says the output of
`clean_sql_output` never contains a triple-backtick fence marker, but removing
the inner `SQL Query:` from the input below joins one leading and two trailing
backticks into a fresh fence, so the output does contain one. -/
theorem clean_sql_output_fence_counterexample :
    hasFence (clean_sql_output "`SQL Query:``".data) = true ∧
      clean_sql_output "`SQL Query:``".data = "```;".data := by
  decide

/-- Claim C2 (amended): for every input whose fence-stripped form contains no
occurrence of `SQL Query:` (so the label-removal step removes nothing), the
output of `clean_sql_output` contains no triple-backtick fence marker. -/
theorem clean_sql_output_no_fence (l : List Char)
    (h : hasLabel (replaceFence (stripFences l)) = false) :
    hasFence (clean_sql_output l) = false := by
  have hrf : replaceFence (stripFences l) = stripFences l := replaceFence_stripFences l
  rw [hrf] at h
  have hremove : removeLabel (replaceFence (stripFences l)) = stripFences l := by
    rw [hrf]
    exact removeLabel_of_no_label h
  have hf4 : hasFence (pyStrip (removeLabel (replaceFence (stripFences l)))) = false := by
    rw [hremove]
    exact hasFence_pyStrip (hasFence_stripFences l)
  show hasFence (if (pyStrip (removeLabel (replaceFence (stripFences l)))).getLast?
      = some ';' then pyStrip (removeLabel (replaceFence (stripFences l)))
      else pyStrip (removeLabel (replaceFence (stripFences l))) ++ [';']) = false
  split
  · exact hf4
  · exact hasFence_append_nontick hf4 (by decide)

/-- Witness for the amended claim C2 at a concrete fenced input. -/
theorem clean_sql_output_no_fence_witness :
    hasFence (clean_sql_output "```sql SELECT 1```".data) = false :=
  clean_sql_output_no_fence "```sql SELECT 1```".data (by decide)

/-- Claim C3 (corrected), counterexample: `clean_sql_output` is not idempotent;
on the input below the first pass produces a fresh fence marker (plus the
appended terminator) and the second pass removes it again. -/
theorem clean_sql_output_not_idempotent :
    clean_sql_output (clean_sql_output "`SQL Query:``".data)
      ≠ clean_sql_output "`SQL Query:``".data ∧
    clean_sql_output (clean_sql_output "`SQL Query:``".data) = ";".data := by
  decide

/-- Claim C3 (amended): on already-clean SQL — no fence marker, no
`SQL Query:` occurrence, no surrounding whitespace, ending in `;` —
`clean_sql_output` is the identity.  (The stronger claim that two
applications always equal one is refuted by
`clean_sql_output_not_idempotent`.) -/
theorem clean_sql_output_fixed_point (l : List Char)
    (h1 : hasFence l = false) (h2 : hasLabel l = false)
    (h3 : pyStrip l = l) (h4 : l.getLast? = some ';') :
    clean_sql_output l = l := by
  show (if (pyStrip (removeLabel (replaceFence (stripFences l)))).getLast?
      = some ';' then pyStrip (removeLabel (replaceFence (stripFences l)))
      else pyStrip (removeLabel (replaceFence (stripFences l))) ++ [';']) = l
  rw [stripFences_of_no_fence h1, replaceFence_of_no_fence h1,
    removeLabel_of_no_label h2, h3, if_pos h4]

/-- Witness for the amended claim C3 at a concrete clean query. -/
theorem clean_sql_output_fixed_point_witness :
    clean_sql_output "SELECT 1;".data = "SELECT 1;".data :=
  clean_sql_output_fixed_point "SELECT 1;".data (by decide) (by decide) (by decide) (by decide)

/-- Claim C4 (confirmed): for every input, including the empty string, the
output of `clean_sql_output` is non-empty and ends with `;`. -/
theorem clean_sql_output_nonempty_terminated (l : List Char) :
    clean_sql_output l ≠ [] ∧ (clean_sql_output l).getLast? = some ';' := by
  show (let c4 := pyStrip (removeLabel (replaceFence (stripFences l)))
    if c4.getLast? = some ';' then c4 else c4 ++ [';']) ≠ [] ∧
    (let c4 := pyStrip (removeLabel (replaceFence (stripFences l)))
    if c4.getLast? = some ';' then c4 else c4 ++ [';']).getLast? = some ';'
  simp only []
  split
  · rename_i h
    refine ⟨?_, h⟩
    intro hnil
    rw [hnil] at h
    simp at h
  · refine ⟨by simp, ?_⟩
    simp

/-- Claim C5 (corrected), counterexample: the claim says an occurrence of
`SQL Query:` that is not a leading label (here: inside a SQL string literal)
is preserved, matching the spec's reference transform; the code instead
removes every occurrence, so it differs from that transform. -/
theorem clean_sql_output_nonleading_label_counterexample :
    clean_sql_output "SELECT 'SQL Query: 1' AS t".data
      ≠ specCleanLeading "SELECT 'SQL Query: 1' AS t".data ∧
    startsWithLabel "SELECT 'SQL Query: 1' AS t".data = false ∧
    hasLabel "SELECT 'SQL Query: 1' AS t".data = true ∧
    hasLabel (clean_sql_output "SELECT 'SQL Query: 1' AS t".data) = false := by
  decide

/-- Claim C5 (amended): `clean_sql_output` equals the reference transform that
strips the fence markers in a single regex pass (the follow-up literal
triple-backtick replacement is redundant), removes **every** occurrence of
`SQL Query:`, trims whitespace and appends the terminator if absent. -/
theorem clean_sql_output_eq_specCleanAll (l : List Char) :
    clean_sql_output l = specCleanAll l := by
  show (let c4 := pyStrip (removeLabel (replaceFence (stripFences l)))
    if c4.getLast? = some ';' then c4 else c4 ++ [';']) = specCleanAll l
  rw [specCleanAll]
  simp only [replaceFence_stripFences]

/-! ### Claims C1, C9, C10: the page-1 pipeline and callback -/

/-- Claim C1 (code bug): the spec says that in `llm` mode a non-empty question
is converted to SQL and answered, but in the source the whole `try:` body is
indented under `if mode == "manual":` and the LLM-mode code sits after that
branch's `return`, so for every non-empty question and all oracles the
callback in `llm` mode returns nothing at all. -/
theorem process_question_llm_returns_nothing
    (readSql : String → Except String (List (List String)))
    (llmSQL : String → Except String String)
    (dbRun : String → Except String String)
    (llmAnswer : String → String → String → Except String String) :
    process_question (some "What is the most viewed video in MM_table?") Mode.llm
      readSql llmSQL dbRun llmAnswer = none := by
  rfl

/-- Claim C9 (confirmed): whichever step of `answer_user_query` raises — SQL
generation, SQL execution, or answer generation — the exception is caught and
the function returns `sql = ""` together with the formatted error answer. -/
theorem answer_user_query_catches_errors (question e : String)
    (llmSQL : String → Except String String)
    (dbRun : String → Except String String)
    (llmAnswer : String → String → String → Except String String)
    (h : llmSQL question = .error e
      ∨ (∃ raw, llmSQL question = .ok raw
          ∧ dbRun (cleanStr (cleanStr (cleanStr raw))) = .error e)
      ∨ (∃ raw resp, llmSQL question = .ok raw
          ∧ dbRun (cleanStr (cleanStr (cleanStr raw))) = .ok resp
          ∧ llmAnswer question (cleanStr (cleanStr raw)) resp = .error e)) :
    answer_user_query question llmSQL dbRun llmAnswer
      = { sql := "", answer := "❌ Error: " ++ e } := by
  rcases h with h1 | ⟨raw, h1, h2⟩ | ⟨raw, resp, h1, h2, h3⟩
  · simp [answer_user_query, query_pipeline, write_sql_query, Except.map, h1]
  · simp [answer_user_query, query_pipeline, write_sql_query, run_query, Except.map, h1, h2]
  · simp [answer_user_query, query_pipeline, write_sql_query, run_query, Except.map, h1, h2, h3]

/-- Witness for claim C9: a concrete failing SQL-generation oracle. -/
theorem answer_user_query_catches_errors_witness :
    answer_user_query "q" (fun _ => .error "boom") (fun _ => .ok "")
      (fun _ _ _ => .ok "")
      = { sql := "", answer := "❌ Error: boom" } :=
  answer_user_query_catches_errors "q" "boom" (fun _ => .error "boom") (fun _ => .ok "")
    (fun _ _ _ => .ok "") (Or.inl rfl)

/-- Claim C10 (confirmed): a missing or empty question makes `process_question`
return empty SQL and answer outputs and the warning message, for every mode
and all oracles — in particular no SQL is executed and no LLM is invoked,
since the result does not depend on the oracles. -/
theorem process_question_empty_question_warning (mode : Mode)
    (readSql : String → Except String (List (List String)))
    (llmSQL : String → Except String String)
    (dbRun : String → Except String String)
    (llmAnswer : String → String → String → Except String String) :
    process_question none mode readSql llmSQL dbRun llmAnswer
      = some (.text "", .text "", .text "⚠️ Please enter a question.") ∧
    process_question (some "") mode readSql llmSQL dbRun llmAnswer
      = some (.text "", .text "", .text "⚠️ Please enter a question.") := by
  constructor
  · simp [process_question]
  · simp [process_question]

/-! ### Lemmas about the page-2 aggregation -/

theorem groupAgg_map_handle (df : List VideoRow) :
    (groupAgg df).map AggRow.handle = (df.map VideoRow.handle).dedup := by
  rw [groupAgg, List.map_map]
  have hcomp : (AggRow.handle ∘ aggFor df) = id := funext fun h => rfl
  rw [hcomp, List.map_id]

theorem mem_groupAgg {df : List VideoRow} {a : AggRow} (h : a ∈ groupAgg df) :
    a = aggFor df a.handle := by
  obtain ⟨hh, _, rfl⟩ := List.mem_map.mp h
  rfl

theorem sum_filter_partition {M : Type} [AddCommMonoid M] (f : VideoRow → M) :
    ∀ hs : List String, hs.Nodup → ∀ rows : List VideoRow,
      (∀ r ∈ rows, r.handle ∈ hs) →
      (hs.map (fun h => ((rows.filter (fun r => r.handle == h)).map f).sum)).sum
        = (rows.map f).sum := by
  intro hs
  induction hs with
  | nil =>
    intro _ rows hcov
    have : rows = [] := List.eq_nil_iff_forall_not_mem.mpr
      (fun r hr => absurd (hcov r hr) (List.not_mem_nil _))
    subst this
    rfl
  | cons h0 hs ih =>
    intro hnd rows hcov
    have h0notin : h0 ∉ hs := (List.nodup_cons.mp hnd).1
    have hnd' : hs.Nodup := (List.nodup_cons.mp hnd).2
    have hsplit : (rows.map f).sum
        = ((rows.filter (fun r => r.handle == h0)).map f).sum
          + ((rows.filter (fun r => !(r.handle == h0))).map f).sum := by
      have hp := List.filter_append_perm (fun r => r.handle == h0) rows
      have := (hp.map f).sum_eq
      rw [List.map_append, List.sum_append] at this
      exact this.symm
    have hsame : ∀ h ∈ hs,
        (rows.filter (fun r => !(r.handle == h0))).filter (fun r => r.handle == h)
          = rows.filter (fun r => r.handle == h) := by
      intro h hmem
      rw [List.filter_filter]
      refine List.filter_congr ?_
      intro r _
      by_cases hrh : (r.handle == h) = true
      · have heq : r.handle = h := by simpa using hrh
        have hne : (r.handle == h0) = false := by
          refine Bool.eq_false_iff.mpr ?_
          intro hcontra
          have hh0 : r.handle = h0 := by simpa using hcontra
          exact h0notin ((heq.symm.trans hh0) ▸ hmem)
        simp [hrh, hne]
      · simp [Bool.eq_false_iff.mpr hrh]
    have hcov' : ∀ r ∈ rows.filter (fun r => !(r.handle == h0)), r.handle ∈ hs := by
      intro r hr
      have hmem := List.mem_of_mem_filter hr
      have hne := List.of_mem_filter hr
      have : r.handle ∈ h0 :: hs := hcov r hmem
      rcases List.mem_cons.mp this with h | h
      · exact absurd h (by simpa using hne)
      · exact h
    have hrec := ih hnd' (rows.filter (fun r => !(r.handle == h0))) hcov'
    have hmapeq : hs.map (fun h => ((rows.filter (fun r => r.handle == h)).map f).sum)
        = hs.map (fun h => (((rows.filter (fun r => !(r.handle == h0))).filter
            (fun r => r.handle == h)).map f).sum) := by
      refine List.map_congr_left ?_
      intro h hmem
      rw [hsame h hmem]
    rw [List.map_cons, List.sum_cons, hmapeq, hrec, hsplit]

theorem sum_map_one {α : Type} (l : List α) : (l.map (fun _ => (1 : Nat))).sum = l.length := by
  induction l with
  | nil => rfl
  | cons a l ih => simp [ih, Nat.add_comm]

theorem groupAgg_sum {M : Type} [AddCommMonoid M] (f : VideoRow → M) (g : AggRow → M)
    (rows : List VideoRow)
    (hfg : ∀ h, g (aggFor rows h) = ((rows.filter (fun r => r.handle == h)).map f).sum) :
    ((groupAgg rows).map g).sum = (rows.map f).sum := by
  rw [groupAgg, List.map_map]
  have hcomp : (g ∘ aggFor rows)
      = fun h => ((rows.filter (fun r => r.handle == h)).map f).sum := funext hfg
  rw [hcomp]
  exact sum_filter_partition f ((rows.map VideoRow.handle).dedup) (List.nodup_dedup _)
    rows (fun r hr => List.mem_dedup.mpr (List.mem_map_of_mem VideoRow.handle hr))

/-! ### Claims C6, C7: the engagement-chart aggregation -/

/-- Claim C6 (confirmed): for every input, date range and metric, the
engagement aggregation yields exactly one row per distinct handle of the
date-filtered data, carrying that handle's summed views, summed likes and row
count, and the rows are ordered descending by the selected metric. -/
theorem update_barline_all_aggregation (rows : List VideoRow) (s e : Int) (m : Metric) :
    ((update_barline_all rows s e m).1.map AggRow.handle).Perm
        (((rows.filter (dateInRange s e)).map VideoRow.handle).dedup)
    ∧ (∀ a ∈ (update_barline_all rows s e m).1,
        a.sumViews = (((rows.filter (dateInRange s e)).filter
            (fun r => r.handle == a.handle)).map VideoRow.views).sum
      ∧ a.sumLikes = (((rows.filter (dateInRange s e)).filter
            (fun r => r.handle == a.handle)).map VideoRow.likes).sum
      ∧ a.countVideos = ((rows.filter (dateInRange s e)).filter
            (fun r => r.handle == a.handle)).length)
    ∧ List.Pairwise (metricDesc m) (update_barline_all rows s e m).1 := by
  have hfst : (update_barline_all rows s e m).1
      = (groupAgg (rows.filter (dateInRange s e))).insertionSort (metricDesc m) := rfl
  have hperm : ((update_barline_all rows s e m).1).Perm
      (groupAgg (rows.filter (dateInRange s e))) := by
    rw [hfst]
    exact List.perm_insertionSort _ _
  refine ⟨?_, ?_, ?_⟩
  · have := hperm.map AggRow.handle
    rwa [groupAgg_map_handle] at this
  · intro a ha
    have hmem : a ∈ groupAgg (rows.filter (dateInRange s e)) := hperm.mem_iff.mp ha
    have heq := mem_groupAgg hmem
    refine ⟨?_, ?_, ?_⟩ <;> (conv_lhs => rw [heq]) <;> rfl
  · rw [hfst]
    exact List.sorted_insertionSort _ _

/-- Claim C7 (corrected), counterexample: the claim says that for the full
date range the aggregated totals equal the totals over the unfiltered input;
but a row whose date failed to parse (pandas `NaT`) is dropped by the date
filter even when the range spans all parsed dates (here both the minimum and
the maximum parsed date are 0), so the aggregated view total 1 differs from
the unfiltered total 3. -/
theorem update_barline_all_full_range_counterexample :
    ([⟨"a", some 0, 1, 1⟩, ⟨"a", none, 2, 2⟩] : List VideoRow).filterMap VideoRow.date = [0]
    ∧ (((update_barline_all [⟨"a", some 0, 1, 1⟩, ⟨"a", none, 2, 2⟩] 0 0 Metric.views).1.map
          AggRow.sumViews).sum
        ≠ (([⟨"a", some 0, 1, 1⟩, ⟨"a", none, 2, 2⟩] : List VideoRow).map VideoRow.views).sum) := by
  decide

/-- Claim C7 (amended): when every row's date parsed successfully and the date
range covers all of them — in particular for the range from the minimum to
the maximum date — the aggregated per-handle sums of views and likes and the
video-count KPI equal the sums over the entire unfiltered input. -/
theorem update_barline_all_full_range (rows : List VideoRow) (s e : Int) (m : Metric)
    (hall : ∀ r ∈ rows, ∃ d, r.date = some d ∧ s ≤ d ∧ d ≤ e) :
    ((update_barline_all rows s e m).1.map AggRow.sumViews).sum
        = (rows.map VideoRow.views).sum
    ∧ ((update_barline_all rows s e m).1.map AggRow.sumLikes).sum
        = (rows.map VideoRow.likes).sum
    ∧ (update_barline_all rows s e m).2 = rows.length := by
  have hdf : rows.filter (dateInRange s e) = rows := by
    refine List.filter_eq_self.mpr ?_
    intro r hr
    obtain ⟨d, hd, h1, h2⟩ := hall r hr
    simp [dateInRange, hd, h1, h2]
  have hperm : ((update_barline_all rows s e m).1).Perm (groupAgg rows) := by
    have : (update_barline_all rows s e m).1
        = (groupAgg (rows.filter (dateInRange s e))).insertionSort (metricDesc m) := rfl
    rw [this, hdf]
    exact List.perm_insertionSort _ _
  have hsnd : (update_barline_all rows s e m).2
      = ((update_barline_all rows s e m).1.map AggRow.countVideos).sum := rfl
  refine ⟨?_, ?_, ?_⟩
  · rw [(hperm.map AggRow.sumViews).sum_eq]
    exact groupAgg_sum VideoRow.views AggRow.sumViews rows (fun h => rfl)
  · rw [(hperm.map AggRow.sumLikes).sum_eq]
    exact groupAgg_sum VideoRow.likes AggRow.sumLikes rows (fun h => rfl)
  · rw [hsnd, (hperm.map AggRow.countVideos).sum_eq,
      groupAgg_sum (fun _ => (1 : Nat)) AggRow.countVideos rows
        (fun h => (sum_map_one _).symm)]
    exact sum_map_one rows

/-- Witness for the amended claim C7 at a two-handle input covering the full
date range. -/
theorem update_barline_all_full_range_witness :
    ((update_barline_all [⟨"a", some 0, 3, 1⟩, ⟨"b", some 2, 5, 7⟩] 0 2 Metric.views).1.map
        AggRow.sumViews).sum = 8
    ∧ (update_barline_all [⟨"a", some 0, 3, 1⟩, ⟨"b", some 2, 5, 7⟩] 0 2 Metric.views).2 = 2 := by
  have h := update_barline_all_full_range [⟨"a", some 0, 3, 1⟩, ⟨"b", some 2, 5, 7⟩] 0 2
    Metric.views (by decide)
  exact ⟨by rw [h.1]; decide, by rw [h.2.2]; rfl⟩

/-! ### Claim C8: the comment sampling -/

/-- Claim C8 (confirmed): for every selected handle and sentiment bucket, the
number of sample rows drawn for display is exactly `min 5 n` where `n` is the
number of available rows of that bucket — hence at most 5 and at most `n` —
and an empty bucket contributes no sample section at all. -/
theorem update_comment_insights_sample_sizes
    (shuffle : List CommentRow → List CommentRow)
    (hperm : ∀ g : List CommentRow, (shuffle g).Perm g)
    (comments : List CommentRow) (h s : String) (rows : List CommentRow)
    (hmem : (s, rows) ∈ update_comment_insights_samples shuffle comments h) :
    rows.length = min 5 (bucketRows comments h s).length
    ∧ rows.length ≤ 5
    ∧ rows.length ≤ (bucketRows comments h s).length
    ∧ bucketRows comments h s ≠ [] := by
  obtain ⟨a, _, hfa⟩ := List.mem_filterMap.mp hmem
  by_cases hempty : (bucketRows comments h a).isEmpty = true
  · rw [if_pos hempty] at hfa
    exact absurd hfa (by simp)
  · rw [if_neg hempty] at hfa
    injection hfa with hpair
    have hs : a = s := congrArg Prod.fst hpair
    have hrows : sampleBucket shuffle (bucketRows comments h a) = rows :=
      congrArg Prod.snd hpair
    rw [← hs]
    have hlen : rows.length = min 5 (bucketRows comments h a).length := by
      rw [← hrows]
      show ((shuffle (bucketRows comments h a)).take
        (min 5 (bucketRows comments h a).length)).length = _
      rw [List.length_take, (hperm (bucketRows comments h a)).length_eq]
      omega
    refine ⟨hlen, ?_, ?_, ?_⟩
    · omega
    · omega
    · intro hnil
      rw [hnil] at hempty
      exact hempty rfl

/-- Witness for claim C8: the identity permutation on a one-comment bucket. -/
theorem update_comment_insights_sample_sizes_witness :
    [(⟨"a", "v", "good", "good", "en", "positive"⟩ : CommentRow)].length
        = min 5 (bucketRows [⟨"a", "v", "good", "good", "en", "positive"⟩] "a"
            "positive").length
    ∧ [(⟨"a", "v", "good", "good", "en", "positive"⟩ : CommentRow)].length ≤ 5
    ∧ [(⟨"a", "v", "good", "good", "en", "positive"⟩ : CommentRow)].length
        ≤ (bucketRows [⟨"a", "v", "good", "good", "en", "positive"⟩] "a" "positive").length
    ∧ bucketRows [⟨"a", "v", "good", "good", "en", "positive"⟩] "a" "positive" ≠ [] :=
  update_comment_insights_sample_sizes id (fun g => List.Perm.refl g)
    [⟨"a", "v", "good", "good", "en", "positive"⟩] "a" "positive"
    [⟨"a", "v", "good", "good", "en", "positive"⟩] (by decide)
